import Mathlib

/-!
Shallow embedding of the HEIF/BMFF metadata reader of the `goheif`
repository (package `heif` with its `bmff` parser layer, plus the grid
handling in `goheif.go`).

Go machine integers are modelled as `Nat` with explicit `% 2 ^ 64`
reductions exactly where the Go code performs wrapping `uint64`
arithmetic.  Go byte slices are `List Nat` (each element a byte value).
Fallible Go functions return `Except`/`Option`; functions that can also
panic (slice bounds violations, nil dereference) return `GoResult`,
whose `crash` constructor stands for a Go runtime panic.
-/

namespace Heif

/-- Error kinds produced by the heif/goheif code paths modelled here.
Each constructor corresponds to one concrete `errors.New`/`fmt.Errorf`
site (or to a read failure of the underlying reader). -/
inductive HErr where
  /-- A metadata parse failure (any error produced while building `BoxMeta`). -/
  | truncated : HErr
  /-- The underlying `io.ReaderAt` returned an error. -/
  | ioRead : HErr
  /-- "heif: item has no location" -/
  | noLocation : HErr
  /-- "heif: expected 1 section, saw %d" -/
  | badExtentCount (n : Nat) : HErr
  /-- "heif: no idat for item" -/
  | noIdat : HErr
  /-- "heif: idat out of bound" -/
  | idatOOB : HErr
  /-- "heif: declared size %d exceeds threshold" -/
  | tooLarge (n : Nat) : HErr
  /-- `ErrNoEXIF` ("heif: no EXIF found") -/
  | noEXIF : HErr
  /-- `ErrUnknownItem` ("heif: unknown item") -/
  | unknownItem : HErr
  /-- "invalid data" from `newGridBox` -/
  | invalidGrid : HErr
  /-- "no dimg" from `Decode` -/
  | noDimg : HErr
  /-- "tiles number not matched: %d != %d" from `Decode` -/
  | tilesMismatch (got expected : Nat) : HErr
deriving DecidableEq, Repr

/-- Outcome of running a Go function that may return a value, return an
error, or panic at runtime. -/
inductive GoResult (α : Type) where
  | ok (a : α) : GoResult α
  | err (e : HErr) : GoResult α
  | crash : GoResult α
deriving DecidableEq, Repr

/-- `bmff.OffsetLength`: one iloc extent, two `uint64` fields. -/
structure OffsetLength where
  Offset : Nat
  Length : Nat
deriving DecidableEq, Repr

/-- `bmff.ItemLocationBoxEntry`. -/
structure ItemLocationBoxEntry where
  ItemID : Nat
  ConstructionMethod : Nat
  DataReferenceIndex : Nat
  BaseOffset : Nat
  ExtentCount : Nat
  Extents : List OffsetLength
deriving DecidableEq, Repr

/-- `bmff.ItemInfoEntry` (the fields the facade reads). -/
structure ItemInfoEntry where
  ItemID : Nat
  ItemType : String
deriving DecidableEq, Repr

/-- `bmff.ItemReferenceEntry`: `refType` is the entry box's 4-byte type
(e.g. "dimg"), as returned by `r.Type().String()`. -/
structure ItemReferenceEntry where
  refType : String
  FromItemID : Nat
  ToItemIDs : List Nat
deriving DecidableEq, Repr

/-- `bmff.hevcConfig`: the fixed-width hvcC prologue fields. -/
structure HevcConfig where
  version : Nat
  generalProfileSpace : Nat
  generalTierFlag : Nat
  generalProfileIdc : Nat
  generalProfileCompatibilityFlags : Nat
  generalLevelIdc : Nat
  minSpatialSegmentationIdc : Nat
  parallelismType : Nat
  chromaFormat : Nat
  bitDepthLuma : Nat
  bitDepthChroma : Nat
  avgFrameRate : Nat
  constantFrameRate : Nat
  numTemporalLayers : Nat
  temporalIdNested : Nat
deriving DecidableEq, Repr

/-- `bmff.hevcNalArray`. -/
structure HevcNalArray where
  completeness : Nat
  unitType : Nat
  units : List (List Nat)
deriving DecidableEq, Repr

/-- `bmff.ItemHevcConfigBox`. -/
structure ItemHevcConfigBox where
  config : HevcConfig
  nalArray : List HevcNalArray
deriving DecidableEq, Repr

/-- `bmff.ItemProperty` (one ipma association). -/
structure ItemProperty where
  Essential : Bool
  Index : Nat
deriving DecidableEq, Repr

/-- `bmff.ItemPropertyAssociationItem`. -/
structure ItemPropertyAssociationItem where
  ItemID : Nat
  Associations : List ItemProperty
deriving DecidableEq, Repr

/-- `bmff.ItemPropertyAssociation` (one ipma box). -/
structure ItemPropertyAssociation where
  Entries : List ItemPropertyAssociationItem
deriving DecidableEq, Repr

/-- A typed property box held in the ipco pool (`bmff.Box` values as the
facade distinguishes them by type assertion). -/
inductive PBox where
  | ispe (width height : Nat) : PBox
  | irot (angle : Nat) : PBox
  | imir (mirror : Nat) : PBox
  | hvcC (ib : ItemHevcConfigBox) : PBox
  | other (typ : String) : PBox
deriving DecidableEq, Repr

/-- `bmff.ItemPropertiesBox` (iprp): the ipco pool plus the ipma boxes. -/
structure ItemPropertiesBox where
  PropertyContainer : List PBox
  Associations : List ItemPropertyAssociation
deriving DecidableEq, Repr

/-- `heif.BoxMeta`: the materialised top-level meta children. -/
structure BoxMeta where
  FileType : Option String := none
  Handler : Option String := none
  PrimaryItem : Option Nat := none
  ItemInfo : Option (List ItemInfoEntry) := none
  Properties : Option ItemPropertiesBox := none
  ItemLocation : Option (List ItemLocationBoxEntry) := none
  ItemData : Option (List Nat) := none
  ItemReference : Option (List ItemReferenceEntry) := none
deriving DecidableEq, Repr

/-- `heif.Item`: the per-id view assembled by `ItemByID`. -/
structure Item where
  ID : Nat
  Info : Option ItemInfoEntry := none
  Location : Option ItemLocationBoxEntry := none
  Properties : List PBox := []
  References : List ItemReferenceEntry := []
deriving DecidableEq, Repr

/-- `heif.File` as `GetItemData` sees it: the random-access source and
the `meta` pointer (nil before `getMeta` has succeeded). -/
structure File where
  ra : List Nat
  meta : Option BoxMeta
deriving DecidableEq, Repr

/-! ### The sticky-error state of `File.getMeta` / `File.setMetaErr` -/

/-- The two lazily populated `heif.File` fields involved in metadata
caching: `metaErr` and `meta`. -/
structure FileMState where
  metaErr : Option HErr
  meta : Option BoxMeta
deriving DecidableEq, Repr

/-- `File.setMetaErr`: `if f.metaErr != nil { f.metaErr = err }; return err`.
Returns the updated state paired with the returned error. -/
def setMetaErr (f : FileMState) (e : HErr) : FileMState × HErr :=
  (if f.metaErr.isSome then { f with metaErr := some e } else f, e)

/-- `File.getMeta`, with the body that reads and parses the boxes from
`f.ra` abstracted by its (deterministic) outcome `parse`.  Returns the
updated `File` state and the call's result. -/
def getMeta (parse : Except HErr BoxMeta) (f : FileMState) :
    FileMState × Except HErr BoxMeta :=
  match f.metaErr with
  | some e => (f, .error e)
  | none =>
    match f.meta with
    | some m => (f, .ok m)
    | none =>
      match parse with
      | .error e =>
        let r := setMetaErr f e
        (r.1, .error r.2)
      | .ok m => ({ f with meta := some m }, .ok m)

/-! ### `File.GetItemData` -/

/-- `200 << 20`: the sanity cap on a declared extent length. -/
def maxSize : Nat := 200 <<< 20

/-- Go slice expression `data[lo:hi]`: panics unless `lo ≤ hi ≤ len(data)`. -/
def sliceGo (data : List Nat) (lo hi : Nat) : GoResult (List Nat) :=
  if lo ≤ hi ∧ hi ≤ data.length then .ok ((data.drop lo).take (hi - lo))
  else .crash

/-- `ReadAt(buf, int64(pos))` against an in-memory byte source of
`ra.length` bytes (`bytes.Reader` semantics): a `pos` whose `int64`
reinterpretation is negative, a position at or past the end, or a short
read all yield an error. -/
def readAt (ra : List Nat) (pos length : Nat) : GoResult (List Nat) :=
  if 2 ^ 63 ≤ pos then .err .ioRead
  else if ra.length ≤ pos then .err .ioRead
  else if pos + length ≤ ra.length then .ok ((ra.drop pos).take length)
  else .err .ioRead

/-- `File.GetItemData`.  All `uint64` additions wrap modulo `2 ^ 64`,
exactly as in Go; the idat slice and the `ReadAt` position use the
wrapped values. -/
def GetItemData (f : File) (it : Item) : GoResult (List Nat) :=
  match it.Location with
  | none => .err .noLocation
  | some loc =>
    match loc.Extents with
    | [offLen] =>
      if loc.ConstructionMethod = 1 then
        match f.meta with
        | none => .crash
        | some m =>
          match m.ItemData with
          | none => .err .noIdat
          | some idat =>
            if idat.length < (offLen.Offset + offLen.Length) % 2 ^ 64 then
              .err .idatOOB
            else
              sliceGo idat offLen.Offset ((offLen.Offset + offLen.Length) % 2 ^ 64)
      else
        if maxSize < offLen.Length then .err (.tooLarge offLen.Length)
        else readAt f.ra ((offLen.Offset + loc.BaseOffset) % 2 ^ 64) offLen.Length
    | es => .err (.badExtentCount es.length)

/-! ### `BoxMeta.EXIFItemID`, `File.ItemByID`, `File.EXIF` -/

/-- The loop body of `BoxMeta.EXIFItemID`: first `infe` whose item type
is "Exif" wins; 0 when there is none. -/
def exifItemIDList : List ItemInfoEntry → Nat
  | [] => 0
  | ife :: rest => if ife.ItemType = "Exif" then ife.ItemID else exifItemIDList rest

/-- `BoxMeta.EXIFItemID`: item ID of the EXIF part, or 0 if not found
(also 0 when `ItemInfo` is nil). -/
def EXIFItemID (m : BoxMeta) : Nat :=
  match m.ItemInfo with
  | none => 0
  | some infos => exifItemIDList infos

/-- The property merge of `File.ItemByID`: iterate the ipma boxes,
stopping once a previous box contributed anything; for the matching
entries dereference each association index (1-based) into the ipco
pool, ignoring indices that are 0 or out of range. -/
def itemProps (m : BoxMeta) (id : Nat) : List PBox :=
  match m.Properties with
  | none => []
  | some ipb =>
    ipb.Associations.foldl
      (fun acc ipa =>
        if 0 < acc.length then acc
        else
          ipa.Entries.foldl
            (fun acc2 e =>
              if e.ItemID = id then
                acc2 ++ e.Associations.filterMap
                  (fun a =>
                    if a.Index ≠ 0 ∧ a.Index ≤ ipb.PropertyContainer.length then
                      ipb.PropertyContainer[a.Index - 1]?
                    else none)
              else acc2)
            acc)
      []

/-- `File.ItemByID` after a successful `getMeta`: linear scans of the
iloc items (last match wins), the iref entries and the infe entries,
then the property merge; no matching `infe` yields `ErrUnknownItem`. -/
def itemByID (m : BoxMeta) (id : Nat) : Except HErr Item :=
  let location :=
    (m.ItemLocation.getD []).foldl
      (fun acc ilbe => if ilbe.ItemID = id then some ilbe else acc) none
  let references :=
    (m.ItemReference.getD []).filter (fun ir => ir.FromItemID = id)
  let info :=
    (m.ItemInfo.getD []).foldl
      (fun acc iie => if iie.ItemID = id then some iie else acc) none
  match info with
  | none => .error .unknownItem
  | some inf =>
    .ok { ID := id, Info := some inf, Location := location,
          Properties := itemProps m id, References := references }

/-- `File.EXIF`.  The `getMeta` call is modelled by the (deterministic)
outcome `parseMeta` of parsing `ra`; the sticky `metaErr` field never
influences it because `setMetaErr` never stores anything (see
`getMeta_error_not_cached`).  `data[4:]` panics when the extracted data
is shorter than 4 bytes. -/
def EXIF (ra : List Nat) (parseMeta : Except HErr BoxMeta) : GoResult (List Nat) :=
  match parseMeta with
  | .error e => .err e
  | .ok meta =>
    let exifID := EXIFItemID meta
    if exifID = 0 then .err .noEXIF
    else
      match itemByID meta exifID with
      | .error e => .err e
      | .ok it =>
        match GetItemData { ra := ra, meta := some meta } it with
        | .err e => .err e
        | .crash => .crash
        | .ok data => if 4 ≤ data.length then .ok (data.drop 4) else .crash

/-! ### Item accessors -/

/-- `bmff.MirrorVertical`. -/
def MirrorVertical : Nat := 0

/-- `bmff.MirrorHorizontal`. -/
def MirrorHorizontal : Nat := 1

/-- The loop of `Item.Mirror`: the first `ImageMirror` property wins;
0 when there is none. -/
def mirrorList : List PBox → Nat
  | [] => 0
  | .imir v :: _ => v
  | _ :: rest => mirrorList rest

/-- `Item.Mirror`: "returns the mirroring axis: 0 = vertical, 1 = horizontal". -/
def Item.Mirror (it : Item) : Nat :=
  mirrorList it.Properties

/-- The loop of `Item.Reference`: first reference entry whose box type
equals `name`. -/
def referenceList (name : String) : List ItemReferenceEntry → Option ItemReferenceEntry
  | [] => none
  | r :: rest => if name = r.refType then some r else referenceList name rest

/-- `Item.Reference`. -/
def Item.Reference (it : Item) (name : String) : Option ItemReferenceEntry :=
  referenceList name it.References

/-! ### Byte-reader primitives (`bmff.bufReader`)

A read either fails (insufficient bytes — in the Go code this sets the
sticky error, and every modelled parser ultimately fails in that case)
or returns the value together with the unconsumed remainder. -/

/-- `readUint8`. -/
def readU8 : List Nat → Option (Nat × List Nat)
  | [] => none
  | b :: rest => some (b, rest)

/-- `readUint16` (big-endian). -/
def readU16 : List Nat → Option (Nat × List Nat)
  | b0 :: b1 :: rest => some (b0 * 256 + b1, rest)
  | _ => none

/-- `readUint32` (big-endian). -/
def readU32 : List Nat → Option (Nat × List Nat)
  | b0 :: b1 :: b2 :: b3 :: rest =>
    some (((b0 * 256 + b1) * 256 + b2) * 256 + b3, rest)
  | _ => none

/-- Read exactly `n` raw bytes (`io.ReadFull` / a counted discard). -/
def readBytes (n : Nat) (s : List Nat) : Option (List Nat × List Nat) :=
  if n ≤ s.length then some (s.take n, s.drop n) else none

/-- `readFullBox`: version byte plus 24-bit big-endian flags. -/
def readFullBoxHeader : List Nat → Option ((Nat × Nat) × List Nat)
  | b0 :: b1 :: b2 :: b3 :: rest =>
    some ((b0, (b1 * 256 + b2) * 256 + b3), rest)
  | _ => none

/-! ### `pitm`: `parsePrimaryItemBox` -/

/-- `bmff.PrimaryItemBox`. -/
structure PrimaryItemBox where
  Version : Nat
  Flags : Nat
  ItemID : Nat
deriving DecidableEq, Repr

/-- `parsePrimaryItemBox`: FullBox header, then the item id read with
`readUint16` (the version is not consulted). -/
def parsePrimaryItemBox (s : List Nat) : Option PrimaryItemBox := do
  let (fb, s) ← readFullBoxHeader s
  let (itemID, _) ← readU16 s
  some { Version := fb.1, Flags := fb.2, ItemID := itemID }

/-- Modelled from the spec ("item id (u16 or u32 depending on version)"):
a pitm parser that reads the item id as a u16 for FullBox version 0 and
as a u32 for any later version. -/
def pitmPerSpec (s : List Nat) : Option PrimaryItemBox := do
  let (fb, s) ← readFullBoxHeader s
  if fb.1 = 0 then
    let (itemID, _) ← readU16 s
    some { Version := fb.1, Flags := fb.2, ItemID := itemID }
  else
    let (itemID, _) ← readU32 s
    some { Version := fb.1, Flags := fb.2, ItemID := itemID }

/-! ### `imir`: `parseImageMirror` -/

/-- `parseImageMirror`: one byte, low bit. -/
def parseImageMirror (s : List Nat) : Option PBox := do
  let (v, _) ← readU8 s
  some (.imir (v &&& 1))

/-! ### `hvcC`: `parseItemHevcConfigBox` and `AsHeader` -/

/-- The fixed-width prologue reads of `parseItemHevcConfigBox`, field by
field in source order (22 bytes in total). -/
def readHevcConfig (s : List Nat) : Option (HevcConfig × List Nat) :=
  (readU8 s).bind fun (version, s) =>
  (readU8 s).bind fun (ch1, s) =>
  (readU32 s).bind fun (gpcf, s) =>
  (readBytes 6 s).bind fun (_, s) =>
  (readU8 s).bind fun (generalLevelIdc, s) =>
  (readU16 s).bind fun (minSpatialSegmentationIdc, s) =>
  (readU8 s).bind fun (parallelismType, s) =>
  (readU8 s).bind fun (chromaFormat, s) =>
  (readU8 s).bind fun (bitDepthLuma, s) =>
  (readU8 s).bind fun (bitDepthChroma, s) =>
  (readU16 s).bind fun (avgFrameRate, s) =>
  (readU8 s).bind fun (ch2, s) =>
  some ({ version := version
          generalProfileSpace := (ch1 >>> 6) &&& 3
          generalTierFlag := (ch1 >>> 5) &&& 1
          generalProfileIdc := ch1 &&& 0x1F
          generalProfileCompatibilityFlags := gpcf
          generalLevelIdc := generalLevelIdc
          minSpatialSegmentationIdc := minSpatialSegmentationIdc
          parallelismType := parallelismType
          chromaFormat := chromaFormat
          bitDepthLuma := bitDepthLuma
          bitDepthChroma := bitDepthChroma
          avgFrameRate := avgFrameRate
          constantFrameRate := (ch2 >>> 6) &&& 0x03
          numTemporalLayers := (ch2 >>> 3) &&& 0x07
          temporalIdNested := (ch2 >>> 2) &&& 1 }, s)

/-- The unit loop of `parseItemHevcConfigBox`: `numUnits` iterations of
(u16 size, then `size` payload bytes); units of declared size 0 are
skipped and contribute nothing. -/
def parseNalUnits : Nat → List Nat → Option (List (List Nat) × List Nat)
  | 0, s => some ([], s)
  | n + 1, s =>
    match readU16 s with
    | none => none
    | some (size, s1) =>
      if size = 0 then parseNalUnits n s1
      else
        match readBytes size s1 with
        | none => none
        | some (unit, s2) =>
          match parseNalUnits n s2 with
          | none => none
          | some (us, s3) => some (unit :: us, s3)

/-- The array loop of `parseItemHevcConfigBox`: one packed byte, a u16
unit count, then the units. -/
def parseNalArrays : Nat → List Nat → Option (List HevcNalArray × List Nat)
  | 0, s => some ([], s)
  | n + 1, s =>
    match readU8 s with
    | none => none
    | some (ch, s1) =>
      match readU16 s1 with
      | none => none
      | some (numUnits, s2) =>
        match parseNalUnits numUnits s2 with
        | none => none
        | some (us, s3) =>
          match parseNalArrays n s3 with
          | none => none
          | some (as, s4) =>
            some ({ completeness := (ch >>> 6) &&& 1
                    unitType := ch &&& 0x3F
                    units := us } :: as, s4)

/-- `parseItemHevcConfigBox`: the config prologue, a u8 array count,
then the NAL arrays.  In Go a truncated body makes either an explicit
error return or the final sticky-error check fail, so the parse
succeeds exactly when every declared read fits in the body. -/
def parseItemHevcConfigBox (s : List Nat) : Option ItemHevcConfigBox :=
  (readHevcConfig s).bind fun (config, s) =>
  (readU8 s).bind fun (numArrays, s) =>
  (parseNalArrays numArrays s).bind fun (arrays, _) =>
  some { config := config, nalArray := arrays }

/-- The 4-byte big-endian length emission of `AsHeader`:
`byte(n>>24), byte(n>>16), byte(n>>8), byte(n)`. -/
def len32 (n : Nat) : List Nat :=
  [(n >>> 24) &&& 0xff, (n >>> 16) &&& 0xff, (n >>> 8) &&& 0xff, n &&& 0xff]

/-- `ItemHevcConfigBox.AsHeader`: append, over the NAL arrays and the
units within each array, the 4-byte length and then the unit bytes. -/
def AsHeader (ib : ItemHevcConfigBox) : List Nat :=
  ib.nalArray.foldl
    (fun out na =>
      na.units.foldl (fun out2 unit => out2 ++ len32 unit.length ++ unit) out)
    []

/-- Modelled from the spec (§4.5/§8.5): the expected header computed
directly from the wire bytes of an hvcC body — for each declared unit a
4-byte big-endian length followed by the payload, empty units omitted.
Unit loop. -/
def specUnitsHeader : Nat → List Nat → Option (List Nat × List Nat)
  | 0, s => some ([], s)
  | n + 1, s =>
    match readU16 s with
    | none => none
    | some (size, s1) =>
      if size = 0 then specUnitsHeader n s1
      else
        match readBytes size s1 with
        | none => none
        | some (unit, s2) =>
          match specUnitsHeader n s2 with
          | none => none
          | some (rest, s3) => some (len32 size ++ unit ++ rest, s3)

/-- Modelled from the spec: array loop of the expected-header extraction. -/
def specArraysHeader : Nat → List Nat → Option (List Nat × List Nat)
  | 0, s => some ([], s)
  | n + 1, s =>
    match readU8 s with
    | none => none
    | some (_, s1) =>
      match readU16 s1 with
      | none => none
      | some (numUnits, s2) =>
        match specUnitsHeader numUnits s2 with
        | none => none
        | some (h, s3) =>
          match specArraysHeader n s3 with
          | none => none
          | some (rest, s4) => some (h ++ rest, s4)

/-- Modelled from the spec: the expected `as_header()` output of an
hvcC body — skip the 22-byte fixed prologue, read the array count, then
concatenate `len32(unit) ‖ unit` over every declared unit in order,
omitting units of declared size 0. -/
def specHeaderOfBytes (s : List Nat) : Option (List Nat) :=
  (readBytes 22 s).bind fun (_, s) =>
  (readU8 s).bind fun (numArrays, s) =>
  (specArraysHeader numArrays s).bind fun (h, _) =>
  some h

/-! ### Grid handling (`goheif.go`) -/

/-- `goheif.gridBox`. -/
structure GridBox where
  columns : Nat
  rows : Nat
  width : Nat
  height : Nat
deriving DecidableEq, Repr

/-- `newGridBox`: an 8-byte record (version, flags, rows−1, columns−1,
u16 width, u16 height), or 12 bytes with u32 dimensions when flags bit
0 is set; shorter data is rejected. -/
def newGridBox (data : List Nat) : Except HErr GridBox :=
  if data.length < 8 then .error .invalidGrid
  else
    let flags := data.getD 1 0
    let rows := data.getD 2 0 + 1
    let columns := data.getD 3 0 + 1
    if flags &&& 1 ≠ 0 then
      if data.length < 12 then .error .invalidGrid
      else
        .ok { columns := columns, rows := rows
              width := data.getD 4 0 <<< 24 ||| data.getD 5 0 <<< 16 |||
                       data.getD 6 0 <<< 8 ||| data.getD 7 0
              height := data.getD 8 0 <<< 24 ||| data.getD 9 0 <<< 16 |||
                        data.getD 10 0 <<< 8 ||| data.getD 11 0 }
    else
      .ok { columns := columns, rows := rows
            width := data.getD 4 0 <<< 8 ||| data.getD 5 0
            height := data.getD 6 0 <<< 8 ||| data.getD 7 0 }

/-- The grid stage of `goheif.Decode` (between `GetItemData` on the
primary item and the tile loop): decode the grid record, look up the
"dimg" reference, and fail unless its to-item-id count equals
`columns * rows`. -/
def decodeGridStage (it : Item) (data : List Nat) :
    Except HErr (GridBox × ItemReferenceEntry) :=
  match newGridBox data with
  | .error e => .error e
  | .ok grid =>
    match it.Reference "dimg" with
    | none => .error .noDimg
    | some dimg =>
      if dimg.ToItemIDs.length ≠ grid.columns * grid.rows then
        .error (.tilesMismatch dimg.ToItemIDs.length (grid.columns * grid.rows))
      else .ok (grid, dimg)

/-! ## Concrete inputs used by the theorems below -/

/-- A file whose three source bytes are all 9 and whose meta was never
populated (the construction-method-0 path never touches it). -/
def fileC2 : File := { ra := [9, 9, 9], meta := none }

/-- An item whose single iloc extent has `Offset = 2^64 - 1` and
`Length = 1`, with `BaseOffset = 2` and construction method 0: the read
position `Offset + BaseOffset` overflows `uint64`. -/
def itemC2 : Item :=
  { ID := 1
    Location := some
      { ItemID := 1, ConstructionMethod := 0, DataReferenceIndex := 0
        BaseOffset := 2, ExtentCount := 1
        Extents := [{ Offset := 2 ^ 64 - 1, Length := 1 }] } }

/-- Metadata holding a 1-byte idat. -/
def metaC3 : BoxMeta := { ItemData := some [5] }

/-- A file with the 1-byte idat loaded. -/
def fileC3 : File := { ra := [], meta := some metaC3 }

/-- An item whose single extent references idat (method 1) with
`Offset = 2^64 - 1` and `Length = 1`: the bound `Offset + Length`
overflows `uint64` and wraps to 0. -/
def itemC3 : Item :=
  { ID := 1
    Location := some
      { ItemID := 1, ConstructionMethod := 1, DataReferenceIndex := 0
        BaseOffset := 0, ExtentCount := 1
        Extents := [{ Offset := 2 ^ 64 - 1, Length := 1 }] } }

/-- Metadata holding a 5-byte idat. -/
def metaC3w : BoxMeta := { ItemData := some [1, 2, 3, 4, 5] }

/-- A file with the 5-byte idat loaded. -/
def fileC3w : File := { ra := [], meta := some metaC3w }

/-- An item whose single method-1 extent `[1, 1+3)` lies inside the
5-byte idat. -/
def itemC3w : Item :=
  { ID := 1
    Location := some
      { ItemID := 1, ConstructionMethod := 1, DataReferenceIndex := 0
        BaseOffset := 0, ExtentCount := 1
        Extents := [{ Offset := 1, Length := 3 }] } }

/-- A file with an empty source and no meta. -/
def fileC4 : File := { ra := [], meta := none }

/-- An item with no iloc entry. -/
def itemC4a : Item := { ID := 1 }

/-- An item whose iloc entry has zero extents. -/
def itemC4b : Item :=
  { ID := 1
    Location := some
      { ItemID := 1, ConstructionMethod := 0, DataReferenceIndex := 0
        BaseOffset := 0, ExtentCount := 0, Extents := [] } }

/-- An item whose single method-0 extent declares a length one byte over
the 200 MiB cap. -/
def itemC4c : Item :=
  { ID := 1
    Location := some
      { ItemID := 1, ConstructionMethod := 0, DataReferenceIndex := 0
        BaseOffset := 0, ExtentCount := 1
        Extents := [{ Offset := 0, Length := maxSize + 1 }] } }

/-- An iloc entry for item 1: method 0, base 0, one extent `[0, 1)`. -/
def locC6 : ItemLocationBoxEntry :=
  { ItemID := 1, ConstructionMethod := 0, DataReferenceIndex := 0
    BaseOffset := 0, ExtentCount := 1, Extents := [{ Offset := 0, Length := 1 }] }

/-- Metadata with an "Exif" infe for item 1 whose located data is the
single byte at position 0. -/
def metaC6 : BoxMeta :=
  { ItemInfo := some [{ ItemID := 1, ItemType := "Exif" }]
    ItemLocation := some [locC6] }

/-- A 1-byte source: the EXIF item's payload is 1 byte long. -/
def raC6 : List Nat := [7]

/-- An iloc entry for item 1: method 0, base 0, one extent `[0, 6)`. -/
def locC6w : ItemLocationBoxEntry :=
  { ItemID := 1, ConstructionMethod := 0, DataReferenceIndex := 0
    BaseOffset := 0, ExtentCount := 1, Extents := [{ Offset := 0, Length := 6 }] }

/-- Metadata with an "Exif" infe for item 1 locating all 6 source bytes. -/
def metaC6w : BoxMeta :=
  { ItemInfo := some [{ ItemID := 1, ItemType := "Exif" }]
    ItemLocation := some [locC6w] }

/-- A 6-byte source. -/
def raC6w : List Nat := [10, 11, 12, 13, 14, 15]

/-- The item that `ItemByID` assembles for id 1 from `metaC6w`. -/
def itemC6w : Item :=
  { ID := 1, Info := some { ItemID := 1, ItemType := "Exif" }
    Location := some locC6w, Properties := [], References := [] }

/-- An iloc entry for item 1: method 0, base 0, one extent `[0, 2)`. -/
def locC9 : ItemLocationBoxEntry :=
  { ItemID := 1, ConstructionMethod := 0, DataReferenceIndex := 0
    BaseOffset := 0, ExtentCount := 1, Extents := [{ Offset := 0, Length := 2 }] }

/-- Metadata with an "Exif" infe for item 1 whose located data is 2
bytes long — shorter than the 4 bytes `EXIF` slices off. -/
def metaC9 : BoxMeta :=
  { ItemInfo := some [{ ItemID := 1, ItemType := "Exif" }]
    ItemLocation := some [locC9] }

/-- A 2-byte source. -/
def raC9 : List Nat := [171, 205]

/-- The item that `ItemByID` assembles for id 1 from `metaC9`. -/
def itemC9 : Item :=
  { ID := 1, Info := some { ItemID := 1, ItemType := "Exif" }
    Location := some locC9, Properties := [], References := [] }

/-- Is a property box an `ImageMirror`? -/
def isImir : PBox → Bool
  | .imir _ => true
  | _ => false

/-- The version-1 pitm body: FullBox version 1, flags 0, then the four
id bytes `00 01 00 00` (value 65536 as a u32, but 1 as a u16). -/
def pitmBytesC8 : List Nat := [1, 0, 0, 0, 0, 1, 0, 0]

/-- Concatenation of the images of `f` over a list, in order (the shape
of `AsHeader`'s output). -/
def catMap {α β : Type} (f : α → List β) : List α → List β
  | [] => []
  | x :: xs => f x ++ catMap f xs

/-- An hvcC body: 22 zero prologue bytes, 1 NAL array of declared type
33 with 2 declared units — one of size 0 (to be skipped) and one
3-byte unit `[9, 8, 7]`. -/
def hvcBytesC5 : List Nat :=
  List.replicate 22 0 ++ [1, 33, 0, 2, 0, 0, 0, 3, 9, 8, 7]

/-- The parse of `hvcBytesC5`. -/
def hvcBoxC5 : ItemHevcConfigBox :=
  { config :=
      { version := 0, generalProfileSpace := 0, generalTierFlag := 0
        generalProfileIdc := 0, generalProfileCompatibilityFlags := 0
        generalLevelIdc := 0, minSpatialSegmentationIdc := 0
        parallelismType := 0, chromaFormat := 0, bitDepthLuma := 0
        bitDepthChroma := 0, avgFrameRate := 0, constantFrameRate := 0
        numTemporalLayers := 0, temporalIdNested := 0 }
    nalArray := [{ completeness := 0, unitType := 33, units := [[9, 8, 7]] }] }

/-- An 8-byte grid record: version 0, flags 0 (16-bit dimensions),
rows = 1+1, columns = 2+1, width = 5, height = 6. -/
def gridDataC7 : List Nat := [0, 0, 1, 2, 0, 5, 0, 6]

/-- An item with a "dimg" reference listing 6 = 3 × 2 tile ids. -/
def itemC7 : Item :=
  { ID := 1
    References := [{ refType := "dimg", FromItemID := 1
                     ToItemIDs := [11, 12, 13, 14, 15, 16] }] }

/-! ## C1 — sticky metadata error caching -/

/-- C1: the claim says a first `getMeta` error is cached on the `File`
and every later operation returns that same first error without
re-parsing.  The code contradicts it: `setMetaErr` stores the error
only when one is *already* stored (`if f.metaErr != nil`), so on a
fresh `File` a failing parse (here with error `truncated`) is returned
but `metaErr` stays nil, and a subsequent call re-runs the parse — a
second call whose parse yields a different error (`ioRead`) returns
that different error instead of the first one. -/
theorem getMeta_error_not_cached :
    (getMeta (.error .truncated) ⟨none, none⟩).2 = .error .truncated ∧
    (getMeta (.error .truncated) ⟨none, none⟩).1.metaErr = none ∧
    (getMeta (.error .ioRead)
      (getMeta (.error .truncated) ⟨none, none⟩).1).2 = .error .ioRead :=
  ⟨rfl, rfl, rfl⟩

/-! ## C2 — unchecked `uint64` sums in `GetItemData` -/

/-- C2 counterexample: for the extent `(Offset = 2^64 - 1, Length = 1)`
with `BaseOffset = 2` and construction method 0, the sum
`Offset + BaseOffset` overflows `uint64` (first conjunct), yet
`GetItemData` does not reject it: the wrapped position 1 is used for
the read and the byte at position 1 is returned. -/
theorem getItemData_overflow_not_rejected :
    2 ^ 64 ≤ (2 ^ 64 - 1) + 2 ∧ GetItemData fileC2 itemC2 = .ok [9] := by
  exact ⟨by norm_num, by rfl⟩

/-- C2 amended: the `uint64` sums in `GetItemData` are computed with
wrapping (mod `2^64`) arithmetic and are not checked for overflow: for
construction methods other than 1 the wrapped `Offset + BaseOffset` is
used as the read position, and for method 1 the wrapped
`Offset + Length` is the value compared against the idat size. -/
theorem getItemData_sums_wrap (f : File) (it : Item)
    (loc : ItemLocationBoxEntry) (ol : OffsetLength)
    (hloc : it.Location = some loc) (hext : loc.Extents = [ol]) :
    (loc.ConstructionMethod ≠ 1 → ol.Length ≤ maxSize →
      GetItemData f it =
        readAt f.ra ((ol.Offset + loc.BaseOffset) % 2 ^ 64) ol.Length) ∧
    (∀ m idat, loc.ConstructionMethod = 1 → f.meta = some m →
      m.ItemData = some idat →
      idat.length < (ol.Offset + ol.Length) % 2 ^ 64 →
      GetItemData f it = .err .idatOOB) := by
  constructor
  · intro hm hlen
    simp [GetItemData, hloc, hext, hm, Nat.not_lt.mpr hlen]
  · intro m idat hm hfm hid hbound
    simp [GetItemData, hloc, hext, hm, hfm, hid, hbound, -Nat.reducePow]

/-- Witness for `getItemData_sums_wrap` at the concrete overflowing
input: `GetItemData` reduces to a read at the wrapped position. -/
theorem getItemData_sums_wrap_witness :
    GetItemData fileC2 itemC2 =
      readAt fileC2.ra (((2 ^ 64 - 1) + 2) % 2 ^ 64) 1 :=
  (getItemData_sums_wrap fileC2 itemC2 _ _ rfl rfl).1
    (by decide) (by decide)

/-! ## C3 — method-1 (idat) extraction -/

/-- C3 counterexample: the extent `(Offset = 2^64 - 1, Length = 1)`
exceeds the 1-byte idat (`1 < Offset + Length`, first conjunct), so the
claim demands a BadLocation-kind error; instead the wrapped bound
`(Offset + Length) % 2^64 = 0` passes the bounds check and the slice
expression `idat[Offset:0]` panics. -/
theorem getItemData_idat_wrap_panics :
    (1 : Nat) < (2 ^ 64 - 1) + 1 ∧ GetItemData fileC3 itemC3 = .crash := by
  exact ⟨by norm_num, by rfl⟩

/-- C3 amended: for a single method-1 extent with an idat present
(sizes below `2^64`, as for any real idat), an extent with
`Offset + Length` within the idat yields exactly the slice
`idat[Offset : Offset+Length]`; an extent whose sum exceeds the idat
size yields the idat-out-of-bound error provided the sum does not
overflow `uint64` (an overflowing sum instead wraps, passes the check
and panics, as `getItemData_idat_wrap_panics` shows); with no idat
present the no-idat error is returned. -/
theorem getItemData_idat_slice (f : File) (m : BoxMeta) (it : Item)
    (loc : ItemLocationBoxEntry) (ol : OffsetLength)
    (hm : f.meta = some m) (hloc : it.Location = some loc)
    (hext : loc.Extents = [ol]) (hcm : loc.ConstructionMethod = 1) :
    (m.ItemData = none → GetItemData f it = .err .noIdat) ∧
    (∀ idat, m.ItemData = some idat → idat.length < 2 ^ 64 →
      (ol.Offset + ol.Length ≤ idat.length →
        GetItemData f it = .ok ((idat.drop ol.Offset).take ol.Length)) ∧
      (idat.length < ol.Offset + ol.Length → ol.Offset + ol.Length < 2 ^ 64 →
        GetItemData f it = .err .idatOOB)) := by
  constructor
  · intro hid
    simp [GetItemData, hloc, hext, hcm, hm, hid]
  · intro idat hid hsize
    constructor
    · intro hin
      have hmod : (ol.Offset + ol.Length) % 2 ^ 64 = ol.Offset + ol.Length :=
        Nat.mod_eq_of_lt (lt_of_le_of_lt hin hsize)
      have hnot : ¬ idat.length < (ol.Offset + ol.Length) % 2 ^ 64 := by
        rw [hmod]; exact Nat.not_lt.mpr hin
      simp [GetItemData, hloc, hext, hcm, hm, hid, hnot, sliceGo, hmod,
        Nat.le_add_right, hin, Nat.add_sub_cancel_left, -Nat.reducePow]
    · intro hout hnooverflow
      have hmod : (ol.Offset + ol.Length) % 2 ^ 64 = ol.Offset + ol.Length :=
        Nat.mod_eq_of_lt hnooverflow
      simp [GetItemData, hloc, hext, hcm, hm, hid, hmod, hout, -Nat.reducePow]

/-- Witness for `getItemData_idat_slice`: the extent `[1, 4)` of the
5-byte idat `[1,2,3,4,5]` extracts `[2,3,4]`. -/
theorem getItemData_idat_slice_witness :
    GetItemData fileC3w itemC3w = .ok [2, 3, 4] := by
  have h := (getItemData_idat_slice fileC3w metaC3w itemC3w _ _
    rfl rfl rfl rfl).2 [1, 2, 3, 4, 5] rfl (by norm_num)
  exact h.1 (by norm_num)

/-! ## C4 — typed rejections of `GetItemData` -/

/-- C4: `GetItemData` fails with a typed error when the item has no
location, when the extent count differs from 1, and (construction
method 0) when the declared length exceeds the 200 MiB cap; in each
case the exact error value is produced, so no data is ever returned. -/
theorem getItemData_rejections (f : File) (it : Item) :
    (it.Location = none → GetItemData f it = .err .noLocation) ∧
    (∀ loc, it.Location = some loc → loc.Extents.length ≠ 1 →
      GetItemData f it = .err (.badExtentCount loc.Extents.length)) ∧
    (∀ loc ol, it.Location = some loc → loc.Extents = [ol] →
      loc.ConstructionMethod = 0 → maxSize < ol.Length →
      GetItemData f it = .err (.tooLarge ol.Length)) := by
  refine ⟨?_, ?_, ?_⟩
  · intro h; simp [GetItemData, h]
  · intro loc hloc hn
    match hext : loc.Extents with
    | [] => simp [GetItemData, hloc, hext]
    | [a] => rw [hext] at hn; simp at hn
    | a :: b :: t => simp [GetItemData, hloc, hext]
  · intro loc ol hloc hext hcm hlen
    simp [GetItemData, hloc, hext, hcm, hlen]

/-- Witness for `getItemData_rejections`: the three rejection cases at
concrete items (no location; zero extents; a method-0 length of
`200 MiB + 1`). -/
theorem getItemData_rejections_witness :
    GetItemData fileC4 itemC4a = .err .noLocation ∧
    GetItemData fileC4 itemC4b = .err (.badExtentCount 0) ∧
    GetItemData fileC4 itemC4c = .err (.tooLarge (maxSize + 1)) := by
  refine ⟨(getItemData_rejections fileC4 itemC4a).1 rfl, ?_, ?_⟩
  · exact (getItemData_rejections fileC4 itemC4b).2.1 _ rfl (by decide)
  · exact (getItemData_rejections fileC4 itemC4c).2.2 _ _ rfl rfl rfl (by decide)

/-! ## C6 / C9 — EXIF extraction -/

/-- A scan that finds no "Exif" infe yields item id 0. -/
theorem exifItemIDList_eq_zero (l : List ItemInfoEntry)
    (h : ∀ ife ∈ l, ife.ItemType ≠ "Exif") : exifItemIDList l = 0 := by
  induction l with
  | nil => rfl
  | cons ife rest ih =>
    have hne : ife.ItemType ≠ "Exif" := h ife (List.mem_cons_self ife rest)
    simp only [exifItemIDList, if_neg hne]
    exact ih fun x hx => h x (List.mem_cons_of_mem ife hx)

/-- C6 counterexample: `metaC6` contains an "Exif" infe (its item id
resolves to 1), yet `EXIF` does not return the item's data with 4
bytes removed — the located payload is 1 byte long, and the slice
`data[4:]` panics. -/
theorem exif_short_payload_counterexample :
    EXIFItemID metaC6 = 1 ∧ EXIF raC6 (.ok metaC6) = .crash :=
  ⟨rfl, rfl⟩

/-- C6 amended: when the parsed metadata has no "Exif" infe entry,
`EXIF` returns `ErrNoEXIF`; when it has one whose id is nonzero, and
the item lookup and data extraction succeed with a payload of at least
4 bytes, `EXIF` returns that payload with exactly its first 4 bytes
removed (a shorter payload panics instead, per
`exif_short_payload_counterexample`). -/
theorem exif_strips_four_bytes (ra : List Nat) (m : BoxMeta) :
    ((∀ ife ∈ m.ItemInfo.getD [], ife.ItemType ≠ "Exif") →
      EXIF ra (.ok m) = .err .noEXIF) ∧
    (∀ it data, EXIFItemID m ≠ 0 →
      itemByID m (EXIFItemID m) = .ok it →
      GetItemData { ra := ra, meta := some m } it = .ok data →
      4 ≤ data.length →
      EXIF ra (.ok m) = .ok (data.drop 4)) := by
  constructor
  · intro h
    have hz : EXIFItemID m = 0 := by
      unfold EXIFItemID
      cases hmi : m.ItemInfo with
      | none => rfl
      | some infos =>
        exact exifItemIDList_eq_zero infos (by simpa [hmi] using h)
    simp [EXIF, hz]
  · intro it data hne hitem hdata hlen
    simp [EXIF, hne, hitem, hdata, hlen]

/-- Witness for `exif_strips_four_bytes`: the 6-byte payload
`[10,11,12,13,14,15]` comes back as `[14,15]`. -/
theorem exif_strips_four_bytes_witness :
    EXIF raC6w (.ok metaC6w) = .ok [14, 15] :=
  (exif_strips_four_bytes raC6w metaC6w).2 itemC6w [10, 11, 12, 13, 14, 15]
    (by decide) rfl rfl (by decide)

/-- C9: a file with an "Exif" infe whose located item data is only 2
bytes long: the item lookup and the data extraction both succeed, and
`EXIF` panics on `data[4:]` instead of returning a typed error. -/
theorem exif_panics_on_short_payload :
    itemByID metaC9 1 = .ok itemC9 ∧
    GetItemData { ra := raC9, meta := some metaC9 } itemC9 = .ok [171, 205] ∧
    EXIF raC9 (.ok metaC9) = .crash :=
  ⟨rfl, rfl, rfl⟩

/-! ## C10 — `Item.Mirror` on items without an imir property -/

/-- A property scan with no `ImageMirror` yields 0. -/
theorem mirrorList_eq_zero (l : List PBox)
    (h : ∀ p ∈ l, isImir p = false) : mirrorList l = 0 := by
  induction l with
  | nil => rfl
  | cons p rest ih =>
    have hp : isImir p = false := h p (List.mem_cons_self p rest)
    have hrest : mirrorList rest = 0 :=
      ih fun x hx => h x (List.mem_cons_of_mem p hx)
    cases p with
    | imir v => simp [isImir] at hp
    | ispe w hgt => simpa [mirrorList] using hrest
    | irot a => simpa [mirrorList] using hrest
    | hvcC ib => simpa [mirrorList] using hrest
    | other t => simpa [mirrorList] using hrest

/-- C10: an item whose merged property list has no imir property gets
`Mirror() = 0`, which equals `MirrorVertical` — and is therefore the
very value returned for an item that carries an explicit vertical
mirror property, so the two are indistinguishable through `Mirror()`. -/
theorem mirror_defaults_to_vertical (it : Item)
    (h : ∀ p ∈ it.Properties, isImir p = false) :
    it.Mirror = 0 ∧ it.Mirror = MirrorVertical ∧
    Item.Mirror { it with Properties := .imir MirrorVertical :: it.Properties } =
      it.Mirror := by
  have hz : mirrorList it.Properties = 0 := mirrorList_eq_zero it.Properties h
  refine ⟨hz, hz, ?_⟩
  simp [Item.Mirror, mirrorList, MirrorVertical, hz]

/-- Witness for `mirror_defaults_to_vertical`: an item with a spatial
extents property but no imir. -/
theorem mirror_defaults_to_vertical_witness :
    Item.Mirror { ID := 1, Properties := [.ispe 640 480] } = 0 ∧
    Item.Mirror { ID := 1, Properties := [.ispe 640 480] } = MirrorVertical ∧
    Item.Mirror { ID := 1, Properties := [.imir MirrorVertical, .ispe 640 480] } =
      Item.Mirror { ID := 1, Properties := [.ispe 640 480] } :=
  mirror_defaults_to_vertical { ID := 1, Properties := [.ispe 640 480] }
    (by decide)

/-! ## C8 — pitm item id width -/

/-- C8 counterexample: on a version-1 pitm body whose id bytes are
`00 01 00 00`, the parser reads a u16 and yields id 1; a parser that
honoured the claimed version-dependent width would read a u32 and
yield 65536.  The two parses differ. -/
theorem pitm_version_counterexample :
    parsePrimaryItemBox pitmBytesC8 =
      some { Version := 1, Flags := 0, ItemID := 1 } ∧
    pitmPerSpec pitmBytesC8 =
      some { Version := 1, Flags := 0, ItemID := 65536 } ∧
    parsePrimaryItemBox pitmBytesC8 ≠ pitmPerSpec pitmBytesC8 :=
  ⟨rfl, rfl, by decide⟩

/-- C8 amended: `parsePrimaryItemBox` reads the item id as a big-endian
u16 regardless of the FullBox version. -/
theorem pitm_reads_u16_always (b0 b1 b2 b3 c0 c1 : Nat) (rest : List Nat) :
    parsePrimaryItemBox (b0 :: b1 :: b2 :: b3 :: c0 :: c1 :: rest) =
      some { Version := b0, Flags := (b1 * 256 + b2) * 256 + b3
             ItemID := c0 * 256 + c1 } :=
  rfl

/-! ## C7 — grid record decoding and the dimg fan-out check -/

/-- C7: `newGridBox` decodes byte 1 as flags, `byte 2 + 1` as rows and
`byte 3 + 1` as columns, then 16-bit dimensions from bytes 4..7 (or
32-bit dimensions from bytes 4..11 when flags bit 0 is set); records
shorter than the required 8 or 12 bytes are rejected; and the grid
stage of `Decode` succeeds only when the "dimg" reference's to-item-id
count equals `columns × rows`. -/
theorem grid_decoding (data : List Nat) (it : Item) :
    (data.length < 8 → newGridBox data = .error .invalidGrid) ∧
    (8 ≤ data.length → data.getD 1 0 &&& 1 = 0 →
      newGridBox data = .ok
        { columns := data.getD 3 0 + 1, rows := data.getD 2 0 + 1
          width := data.getD 4 0 <<< 8 ||| data.getD 5 0
          height := data.getD 6 0 <<< 8 ||| data.getD 7 0 }) ∧
    (8 ≤ data.length → data.length < 12 → data.getD 1 0 &&& 1 ≠ 0 →
      newGridBox data = .error .invalidGrid) ∧
    (12 ≤ data.length → data.getD 1 0 &&& 1 ≠ 0 →
      newGridBox data = .ok
        { columns := data.getD 3 0 + 1, rows := data.getD 2 0 + 1
          width := data.getD 4 0 <<< 24 ||| data.getD 5 0 <<< 16 |||
                   data.getD 6 0 <<< 8 ||| data.getD 7 0
          height := data.getD 8 0 <<< 24 ||| data.getD 9 0 <<< 16 |||
                    data.getD 10 0 <<< 8 ||| data.getD 11 0 }) ∧
    (∀ grid dimg, decodeGridStage it data = .ok (grid, dimg) →
      dimg.ToItemIDs.length = grid.columns * grid.rows) := by
  refine ⟨?_, ?_, ?_, ?_, ?_⟩
  · intro h
    simp only [newGridBox]
    rw [if_pos h]
  · intro h8 hflag
    simp only [newGridBox]
    rw [if_neg (Nat.not_lt.mpr h8), if_neg (fun hcc => hcc hflag)]
  · intro h8 h12 hflag
    simp only [newGridBox]
    rw [if_neg (Nat.not_lt.mpr h8), if_pos hflag, if_pos h12]
  · intro h12 hflag
    have h8 : ¬ data.length < 8 := by omega
    simp only [newGridBox]
    rw [if_neg h8, if_pos hflag, if_neg (Nat.not_lt.mpr h12)]
  · intro grid dimg h
    unfold decodeGridStage at h
    split at h
    · exact absurd h (by simp)
    · split at h
      · exact absurd h (by simp)
      · split at h
        · exact absurd h (by simp)
        · rename_i hc
          obtain ⟨rfl, rfl⟩ := by simpa [Prod.ext_iff] using h
          exact not_not.mp hc

/-- Witness for `grid_decoding`: the 8-byte record `[0,0,1,2,0,5,0,6]`
decodes to a 3 × 2 grid of width 5 and height 6, `[0,0]` is rejected
as too short, and the grid stage on an item with six "dimg" targets
gives a fan-out equal to `columns × rows`. -/
theorem grid_decoding_witness :
    newGridBox gridDataC7 = .ok { columns := 3, rows := 2, width := 5, height := 6 } ∧
    newGridBox [0, 0] = .error .invalidGrid ∧
    (6 : Nat) = 3 * 2 := by
  refine ⟨?_, ?_, rfl⟩
  · have h := (grid_decoding gridDataC7 itemC7).2.1 (by decide) (by decide)
    have e : ({ columns := gridDataC7.getD 3 0 + 1, rows := gridDataC7.getD 2 0 + 1
                width := gridDataC7.getD 4 0 <<< 8 ||| gridDataC7.getD 5 0
                height := gridDataC7.getD 6 0 <<< 8 ||| gridDataC7.getD 7 0 } : GridBox) =
        { columns := 3, rows := 2, width := 5, height := 6 } := by decide
    exact e ▸ h
  · exact (grid_decoding [0, 0] itemC7).1 (by decide)

/-! ## C5 — `AsHeader` against the hvcC wire format -/

/-- A successful `readU8` consumes one byte. -/
theorem readU8_some {s t : List Nat} {b : Nat}
    (h : readU8 s = some (b, t)) : t = s.drop 1 ∧ 1 ≤ s.length := by
  cases s with
  | nil => exact absurd h (by simp [readU8])
  | cons x xs =>
    obtain ⟨rfl, rfl⟩ : x = b ∧ xs = t := by simpa [readU8] using h
    exact ⟨rfl, by simp⟩

/-- A successful `readU16` consumes two bytes. -/
theorem readU16_some {s t : List Nat} {b : Nat}
    (h : readU16 s = some (b, t)) : t = s.drop 2 ∧ 2 ≤ s.length := by
  match s with
  | [] => exact absurd h (by simp [readU16])
  | [x] => exact absurd h (by simp [readU16])
  | x :: y :: xs =>
    obtain ⟨h1, rfl⟩ : x * 256 + y = b ∧ xs = t := by simpa [readU16] using h
    exact ⟨rfl, by simp⟩

/-- A successful `readU32` consumes four bytes. -/
theorem readU32_some {s t : List Nat} {b : Nat}
    (h : readU32 s = some (b, t)) : t = s.drop 4 ∧ 4 ≤ s.length := by
  match s with
  | [] => exact absurd h (by simp [readU32])
  | [x] => exact absurd h (by simp [readU32])
  | [x, y] => exact absurd h (by simp [readU32])
  | [x, y, z] => exact absurd h (by simp [readU32])
  | x :: y :: z :: w :: xs =>
    obtain ⟨h1, rfl⟩ : ((x * 256 + y) * 256 + z) * 256 + w = b ∧ xs = t := by
      simpa [readU32] using h
    exact ⟨rfl, by simp⟩

/-- A successful `readBytes n` returns the first `n` bytes and consumes
exactly them. -/
theorem readBytes_some {n : Nat} {s u t : List Nat}
    (h : readBytes n s = some (u, t)) :
    u = s.take n ∧ t = s.drop n ∧ n ≤ s.length ∧ u.length = n := by
  unfold readBytes at h
  split at h
  · rename_i hle
    obtain ⟨rfl, rfl⟩ : s.take n = u ∧ s.drop n = t := by simpa using h
    exact ⟨rfl, rfl, hle, by simp [List.length_take, Nat.min_eq_left hle]⟩
  · exact absurd h (by simp)

/-- A successful `readHevcConfig` consumes exactly the 22 prologue bytes. -/
theorem readHevcConfig_consumes {s t : List Nat} {c : HevcConfig}
    (h : readHevcConfig s = some (c, t)) : t = s.drop 22 ∧ 22 ≤ s.length := by
  unfold readHevcConfig at h
  rw [Option.bind_eq_some] at h
  obtain ⟨⟨b1, s1⟩, h1, h⟩ := h
  dsimp only at h
  obtain ⟨e1, l1⟩ := readU8_some h1
  rw [Option.bind_eq_some] at h
  obtain ⟨⟨b2, s2⟩, h2, h⟩ := h
  dsimp only at h
  obtain ⟨e2, l2⟩ := readU8_some h2
  rw [Option.bind_eq_some] at h
  obtain ⟨⟨b3, s3⟩, h3, h⟩ := h
  dsimp only at h
  obtain ⟨e3, l3⟩ := readU32_some h3
  rw [Option.bind_eq_some] at h
  obtain ⟨⟨b4, s4⟩, h4, h⟩ := h
  dsimp only at h
  obtain ⟨-, e4, l4, -⟩ := readBytes_some h4
  rw [Option.bind_eq_some] at h
  obtain ⟨⟨b5, s5⟩, h5, h⟩ := h
  dsimp only at h
  obtain ⟨e5, l5⟩ := readU8_some h5
  rw [Option.bind_eq_some] at h
  obtain ⟨⟨b6, s6⟩, h6, h⟩ := h
  dsimp only at h
  obtain ⟨e6, l6⟩ := readU16_some h6
  rw [Option.bind_eq_some] at h
  obtain ⟨⟨b7, s7⟩, h7, h⟩ := h
  dsimp only at h
  obtain ⟨e7, l7⟩ := readU8_some h7
  rw [Option.bind_eq_some] at h
  obtain ⟨⟨b8, s8⟩, h8, h⟩ := h
  dsimp only at h
  obtain ⟨e8, l8⟩ := readU8_some h8
  rw [Option.bind_eq_some] at h
  obtain ⟨⟨b9, s9⟩, h9, h⟩ := h
  dsimp only at h
  obtain ⟨e9, l9⟩ := readU8_some h9
  rw [Option.bind_eq_some] at h
  obtain ⟨⟨b10, s10⟩, h10, h⟩ := h
  dsimp only at h
  obtain ⟨e10, l10⟩ := readU8_some h10
  rw [Option.bind_eq_some] at h
  obtain ⟨⟨b11, s11⟩, h11, h⟩ := h
  dsimp only at h
  obtain ⟨e11, l11⟩ := readU16_some h11
  rw [Option.bind_eq_some] at h
  obtain ⟨⟨b12, s12⟩, h12, h⟩ := h
  dsimp only at h
  obtain ⟨e12, l12⟩ := readU8_some h12
  injection h with hpair
  have ht : s12 = t := congrArg Prod.snd hpair
  subst ht
  subst e1 e2 e3 e4 e5 e6 e7 e8 e9 e10 e11 e12
  simp only [List.drop_drop, List.length_drop] at *
  constructor
  · norm_num
  · omega

/-- The unit loop of the source parser refines the spec's per-unit
header extraction: the collected units are exactly the nonempty
declared payloads, and the spec-side walk over the same bytes emits
their length-prefixed concatenation. -/
theorem parseNalUnits_spec (n : Nat) :
    ∀ (s : List Nat) (us : List (List Nat)) (t : List Nat),
      parseNalUnits n s = some (us, t) →
      specUnitsHeader n s = some (catMap (fun u => len32 u.length ++ u) us, t) := by
  induction n with
  | zero =>
    intro s us t h
    obtain ⟨rfl, rfl⟩ : [] = us ∧ s = t := by simpa [parseNalUnits] using h
    simp [specUnitsHeader, catMap]
  | succ n ih =>
    intro s us t h
    simp only [parseNalUnits] at h
    cases h1 : readU16 s with
    | none => rw [h1] at h; simp at h
    | some p1 =>
      obtain ⟨size, s1⟩ := p1
      simp only [h1] at h
      by_cases hz : size = 0
      · rw [if_pos hz] at h
        simp only [specUnitsHeader, h1]
        rw [if_pos hz]
        exact ih s1 us t h
      · rw [if_neg hz] at h
        cases h2 : readBytes size s1 with
        | none => simp [h2] at h
        | some p2 =>
          obtain ⟨unit, s2⟩ := p2
          simp only [h2] at h
          cases h3 : parseNalUnits n s2 with
          | none => simp [h3] at h
          | some p3 =>
            obtain ⟨us0, s3⟩ := p3
            simp only [h3] at h
            obtain ⟨rfl, rfl⟩ : unit :: us0 = us ∧ s3 = t := by simpa using h
            obtain ⟨-, -, -, hlen⟩ := readBytes_some h2
            simp only [specUnitsHeader, h1]
            rw [if_neg hz]
            simp only [h2, ih s2 us0 s3 h3]
            simp [catMap, hlen, List.append_assoc]

/-- The array loop of the source parser refines the spec's per-array
header extraction. -/
theorem parseNalArrays_spec (n : Nat) :
    ∀ (s : List Nat) (as : List HevcNalArray) (t : List Nat),
      parseNalArrays n s = some (as, t) →
      specArraysHeader n s =
        some (catMap (fun na => catMap (fun u => len32 u.length ++ u) na.units) as, t) := by
  induction n with
  | zero =>
    intro s as t h
    obtain ⟨rfl, rfl⟩ : [] = as ∧ s = t := by simpa [parseNalArrays] using h
    simp [specArraysHeader, catMap]
  | succ n ih =>
    intro s as t h
    simp only [parseNalArrays] at h
    cases h1 : readU8 s with
    | none => rw [h1] at h; simp at h
    | some p1 =>
      obtain ⟨ch, s1⟩ := p1
      simp only [h1] at h
      cases h2 : readU16 s1 with
      | none => simp [h2] at h
      | some p2 =>
        obtain ⟨numUnits, s2⟩ := p2
        simp only [h2] at h
        cases h3 : parseNalUnits numUnits s2 with
        | none => simp [h3] at h
        | some p3 =>
          obtain ⟨us, s3⟩ := p3
          simp only [h3] at h
          cases h4 : parseNalArrays n s3 with
          | none => simp [h4] at h
          | some p4 =>
            obtain ⟨rest, s4⟩ := p4
            simp only [h4] at h
            obtain ⟨rfl, rfl⟩ :
                ({ completeness := (ch >>> 6) &&& 1, unitType := ch &&& 0x3F
                   units := us } : HevcNalArray) :: rest = as ∧ s4 = t := by
              simpa using h
            simp only [specArraysHeader, h1, h2,
              parseNalUnits_spec numUnits s2 us s3 h3, ih s3 rest s4 h4]
            simp [catMap]

/-- Folding length-prefixed appends over units equals the prefix plus
the concatenated emission. -/
theorem foldl_unit_append (l : List (List Nat)) :
    ∀ init : List Nat,
      l.foldl (fun out2 unit => out2 ++ len32 unit.length ++ unit) init =
        init ++ catMap (fun u => len32 u.length ++ u) l := by
  induction l with
  | nil => intro init; simp [catMap]
  | cons u rest ih =>
    intro init
    rw [List.foldl_cons, ih]
    simp [catMap, List.append_assoc]

/-- The two nested folds of `AsHeader` equal the flat concatenation. -/
theorem foldl_array_append (l : List HevcNalArray) :
    ∀ init : List Nat,
      l.foldl
        (fun out na =>
          na.units.foldl (fun out2 unit => out2 ++ len32 unit.length ++ unit) out)
        init =
      init ++ catMap (fun na => catMap (fun u => len32 u.length ++ u) na.units) l := by
  induction l with
  | nil => intro init; simp [catMap]
  | cons na rest ih =>
    intro init
    rw [List.foldl_cons, ih, foldl_unit_append]
    simp [catMap, List.append_assoc]

/-- `AsHeader` as a flat concatenation over arrays and units. -/
theorem asHeader_catMap (ib : ItemHevcConfigBox) :
    AsHeader ib =
      catMap (fun na => catMap (fun u => len32 u.length ++ u) na.units) ib.nalArray := by
  unfold AsHeader
  rw [foldl_array_append]
  simp

/-- C5: for every hvcC body that `parseItemHevcConfigBox` accepts,
`AsHeader` of the parsed box is exactly the spec-side emission computed
from the wire bytes — in iteration order over the NAL arrays and the
units within each array, a 4-byte big-endian length followed by the
unit bytes, with units of declared size 0 omitted. -/
theorem hvcc_header_matches_wire (s : List Nat) (ib : ItemHevcConfigBox)
    (h : parseItemHevcConfigBox s = some ib) :
    specHeaderOfBytes s = some (AsHeader ib) := by
  unfold parseItemHevcConfigBox at h
  rw [Option.bind_eq_some] at h
  obtain ⟨⟨cfg, s1⟩, h1, h⟩ := h
  dsimp only at h
  rw [Option.bind_eq_some] at h
  obtain ⟨⟨numArrays, s2⟩, h2, h⟩ := h
  dsimp only at h
  rw [Option.bind_eq_some] at h
  obtain ⟨⟨arrays, s3⟩, h3, h⟩ := h
  dsimp only at h
  injection h with hib
  subst hib
  obtain ⟨e1, l1⟩ := readHevcConfig_consumes h1
  unfold specHeaderOfBytes
  have hb : readBytes 22 s = some (s.take 22, s.drop 22) := by
    unfold readBytes; rw [if_pos l1]
  rw [hb, Option.some_bind]
  dsimp only
  rw [← e1, h2, Option.some_bind]
  dsimp only
  rw [parseNalArrays_spec numArrays s2 arrays s3 h3, Option.some_bind]
  simp [asHeader_catMap]

/-- Witness for `hvcc_header_matches_wire`: the concrete hvcC body with
one empty and one 3-byte unit parses, and the spec-side emission equals
`AsHeader` of the parse, namely `[0,0,0,3,9,8,7]`. -/
theorem hvcc_header_matches_wire_witness :
    parseItemHevcConfigBox hvcBytesC5 = some hvcBoxC5 ∧
    specHeaderOfBytes hvcBytesC5 = some (AsHeader hvcBoxC5) :=
  ⟨by decide, hvcc_header_matches_wire hvcBytesC5 hvcBoxC5 (by decide)⟩

end Heif
